import Mathlib

/-!
Verification development for the broker-commission ledger of the
`bestshowroom` dealership dashboard.

The engine under study lives in the SQL trigger functions of
`supabase/migrations/*.sql` (several mutually inconsistent revisions of
`calculate_broker_commission`, `update_broker_commissions_on_car_update`,
`update_broker_totals` and `handle_car_sale`) and in the client-side
`markCommissionPaid` handler of `src/pages/Brokers.tsx`.

Each SQL revision is embedded as a pure Lean function on an explicit
relational state (`State`); the TypeScript client handler is embedded on a
client-side state (`ClientState`) whose broker totals carry JavaScript
number semantics (`JSNum`, with NaN).  SQL `numeric` values are modelled
as `Rat`; nullable columns as `Option`.
-/

/-- The `commission_type` enum from `001_create_showroom_schema.sql`. -/
inductive CommissionType
  | fixed
  | percentage
deriving DecidableEq

/-- The `car_status` enum from `001_create_showroom_schema.sql`. -/
inductive CarStatus
  | available
  | sold
deriving DecidableEq

/-- The `payment_type` enum from `001_create_showroom_schema.sql`. -/
inductive PaymentType
  | full_purchase
  | hire_purchase_deposit
  | hire_purchase_installment
deriving DecidableEq

/-- A row of the `cars` table (the columns relevant to the commission
engine): `purchase_price DECIMAL NOT NULL`, nullable `broker_id`,
`broker_commission_type`, `broker_commission_value`, and `status`. -/
structure Car where
  id : Nat
  purchase_price : Rat
  broker_id : Option Nat
  broker_commission_type : Option CommissionType
  broker_commission_value : Option Rat
  status : CarStatus
deriving DecidableEq

/-- A row of the `broker_commissions` table: nullable `broker_id` and
`car_id` foreign keys, `commission_amount DECIMAL NOT NULL`,
`is_paid BOOLEAN DEFAULT FALSE`, nullable `paid_date`. -/
structure CommissionRecord where
  id : Nat
  broker_id : Option Nat
  car_id : Nat
  commission_amount : Rat
  is_paid : Bool
  paid_date : Option Nat
deriving DecidableEq

/-- A row of the `brokers` table: the two denormalised running totals. -/
structure Broker where
  id : Nat
  total_commission_due : Rat
  total_commission_paid : Rat
deriving DecidableEq

/-- A row of the `payments` table (the columns read by `handle_car_sale`). -/
structure Payment where
  car_id : Nat
  payment_type : PaymentType
deriving DecidableEq

/-- The persistent store: the three relations the commission engine
touches. -/
structure State where
  cars : List Car
  brokers : List Broker
  commissions : List CommissionRecord
deriving DecidableEq

/-- Embedding of `calculate_broker_commission` from `001_create_showroom_schema.sql`
(lines 320-340).  The plpgsql body propagates SQL NULLs: a `fixed` type
with a NULL value yields a NULL amount, so the result is an `Option`.
A NULL type falls into the ELSE branch and yields 0. -/
def calculate_broker_commission_001 (c : Car) : Option Rat :=
  match c.broker_commission_type with
  | some CommissionType.fixed => c.broker_commission_value
  | some CommissionType.percentage =>
      c.broker_commission_value.map (fun v => c.purchase_price * v / 100)
  | none => some 0

/-- Embedding of `calculate_broker_commission` from `20250101000000_definitive_fix.sql`
(lines 59-79): amount starts at 0 and is only assigned when
`broker_id IS NOT NULL AND broker_commission_value IS NOT NULL AND
broker_commission_value > 0`; inside, a NULL type leaves the 0. -/
def calculate_broker_commission_v0 (c : Car) : Rat :=
  match c.broker_id, c.broker_commission_value with
  | some _, some v =>
      if v > 0 then
        match c.broker_commission_type with
        | some CommissionType.fixed => v
        | some CommissionType.percentage => c.purchase_price * (v / 100)
        | none => 0
      else 0
  | _, _ => 0

/-- Embedding of `calculate_broker_commission` from
`20250101000012_final_definitive_fix.sql` (lines 68-88): returns 0 when
`broker_id` or `broker_commission_value` is NULL; otherwise the
`percentage` branch computes `price * (value / 100)` and the ELSE branch
(which also catches a NULL type) returns the value verbatim, with no
`value > 0` check. -/
def calculate_broker_commission_v12 (c : Car) : Rat :=
  match c.broker_id, c.broker_commission_value with
  | some _, some v =>
      if c.broker_commission_type = some CommissionType.percentage then
        c.purchase_price * (v / 100)
      else v
  | _, _ => 0

/-- Embedding of `calculate_broker_commission` from
`20250523120000_final_security_and_datatable_updates.sql` (lines 50-75):
returns 0 when type or value is NULL; `fixed` returns the value,
`percentage` returns `price * (value / 100)`. -/
def calculate_broker_commission_v23 (c : Car) : Rat :=
  match c.broker_commission_type, c.broker_commission_value with
  | some CommissionType.fixed, some v => v
  | some CommissionType.percentage, some v => c.purchase_price * (v / 100)
  | _, _ => 0

/-- Embedding of `calculate_broker_commission` from `unnamed/part_003` (lines 124-160):
identical to the `20250523120000` revision except the percentage formula
is written `(price * value) / 100`. -/
def calculate_broker_commission_p3 (c : Car) : Rat :=
  match c.broker_commission_type, c.broker_commission_value with
  | some CommissionType.fixed, some v => v
  | some CommissionType.percentage, some v => (c.purchase_price * v) / 100
  | _, _ => 0

/-- Reference Commission Calculator.  Modelled from the spec (section 4.1):
`computeCommission(purchasePrice, commissionType, commissionValue)` returns
0 when the type is absent, the value is absent, or the value is at most 0;
otherwise `fixed` returns the value verbatim and `percentage` returns
`purchasePrice * commissionValue / 100`. -/
def computeCommission_spec (price : Rat) (t : Option CommissionType)
    (v : Option Rat) : Rat :=
  match t, v with
  | some CommissionType.fixed, some x => if x ≤ 0 then 0 else x
  | some CommissionType.percentage, some x =>
      if x ≤ 0 then 0 else price * x / 100
  | _, _ => 0

/-- Convenience constructor used only in theorem statements: a car with the
given price, broker, commission policy, in `available` status, id 0. -/
def mkCar (price : Rat) (b : Option Nat) (t : Option CommissionType)
    (v : Option Rat) : Car :=
  ⟨0, price, b, t, v, CarStatus.available⟩

/-- Embedding of `DELETE FROM broker_commissions WHERE car_id = cid` — the unconditional
delete used by several trigger revisions. -/
def deleteByCar (cid : Nat) (rs : List CommissionRecord) :
    List CommissionRecord :=
  rs.filter (fun r => r.car_id ≠ cid)

/-- Embedding of `INSERT ... ON CONFLICT (car_id) DO UPDATE SET broker_id, commission_amount,
is_paid = false, paid_date = NULL` from `20250101000000_definitive_fix.sql`
(lines 99-106).  `nid` models the freshly generated id of an inserted row. -/
def upsertByCar_v0 (nid : Nat) (bid : Nat) (cid : Nat) (amt : Rat)
    (rs : List CommissionRecord) : List CommissionRecord :=
  if rs.any (fun r => r.car_id == cid) then
    rs.map (fun r =>
      if r.car_id = cid then
        { r with broker_id := some bid, commission_amount := amt,
                 is_paid := false, paid_date := none }
      else r)
  else
    rs ++ [⟨nid, some bid, cid, amt, false, none⟩]

/-- Embedding of `INSERT ... ON CONFLICT (car_id) DO UPDATE SET broker_id,
commission_amount, is_paid = false` from
`20250101000012_final_definitive_fix.sql` (lines 110-116); unlike the
earlier revision it does not touch `paid_date`. -/
def upsertByCar_v12 (nid : Nat) (bid : Nat) (cid : Nat) (amt : Rat)
    (rs : List CommissionRecord) : List CommissionRecord :=
  if rs.any (fun r => r.car_id == cid) then
    rs.map (fun r =>
      if r.car_id = cid then
        { r with broker_id := some bid, commission_amount := amt,
                 is_paid := false }
      else r)
  else
    rs ++ [⟨nid, some bid, cid, amt, false, none⟩]

/-- Embedding of `update_broker_commissions_on_car_update` from
`20250101000000_definitive_fix.sql` (lines 86-115): compute the amount with
the same script's `calculate_broker_commission`; when a broker is set and
the amount is positive, upsert keyed on `car_id` (resetting `is_paid` and
`paid_date`); otherwise delete every commission record of the car. -/
def update_broker_commissions_v0 (c : Car) (nid : Nat) (s : State) : State :=
  let amt := calculate_broker_commission_v0 c
  match c.broker_id with
  | some b =>
      if amt > 0 then
        { s with commissions := upsertByCar_v0 nid b c.id amt s.commissions }
      else
        { s with commissions := deleteByCar c.id s.commissions }
  | none => { s with commissions := deleteByCar c.id s.commissions }

/-- Shared body of `update_broker_commissions_on_car_update` from
`20250101000012_final_definitive_fix.sql` (lines 103-120), i.e. what runs
once the trigger-op guard has passed and `NEW.broker_id IS NOT NULL`:
upsert when the computed amount is positive, otherwise delete. -/
def update_broker_commissions_v12_body (c : Car) (nid : Nat) (s : State) :
    State :=
  let amt := calculate_broker_commission_v12 c
  if amt > 0 then
    { s with commissions :=
        upsertByCar_v12 nid (c.broker_id.getD 0) c.id amt s.commissions }
  else
    { s with commissions := deleteByCar c.id s.commissions }

/-- Embedding of `update_broker_commissions_on_car_update` from
`20250101000012_final_definitive_fix.sql` fired with `TG_OP = 'INSERT'`:
the guard reduces to `NEW.broker_id IS NOT NULL`. -/
def update_broker_commissions_v12_ins (c : Car) (nid : Nat) (s : State) :
    State :=
  if c.broker_id ≠ none then update_broker_commissions_v12_body c nid s else s

/-- Embedding of `update_broker_commissions_on_car_update` from
`20250101000012_final_definitive_fix.sql` fired with `TG_OP = 'UPDATE'`:
the body runs only when broker, commission type, commission value or
purchase price is distinct between OLD and NEW, and `NEW.broker_id` is
set.  A sale-status-only update runs none of the body. -/
def update_broker_commissions_v12_upd (old new : Car) (nid : Nat)
    (s : State) : State :=
  if (old.broker_id ≠ new.broker_id ∨
      old.broker_commission_type ≠ new.broker_commission_type ∨
      old.broker_commission_value ≠ new.broker_commission_value ∨
      old.purchase_price ≠ new.purchase_price) ∧ new.broker_id ≠ none then
    update_broker_commissions_v12_body new nid s
  else s

/-- The inline commission formula of `update_broker_commissions_on_car_update`
from `20250101000018_definitive_security_and_dependency_fix.sql`
(lines 122-126): `percentage` gives `(price * value) / 100`, anything else
(including a NULL type) gives the value. -/
def commission_v18 (c : Car) (v : Rat) : Rat :=
  if c.broker_commission_type = some CommissionType.percentage then
    c.purchase_price * v / 100
  else v

/-- Embedding of `update_broker_commissions_on_car_update` from
`20250101000018_definitive_security_and_dependency_fix.sql` fired on
INSERT: create a record when `NEW.broker_id` and a positive
`NEW.broker_commission_value` are present.  Broker totals are never
touched. -/
def update_broker_commissions_v18_ins (c : Car) (nid : Nat) (s : State) :
    State :=
  match c.broker_id, c.broker_commission_value with
  | some b, some v =>
      if v > 0 then
        { s with commissions :=
            s.commissions ++ [⟨nid, some b, c.id, commission_v18 c v, false, none⟩] }
      else s
  | _, _ => s

/-- Embedding of `update_broker_commissions_on_car_update` from
`20250101000018_definitive_security_and_dependency_fix.sql` fired on
UPDATE: the function body (and the trigger's WHEN clause, line 151) run
only when `broker_id` or `broker_commission_value` changed — not on
purchase-price, type or status changes.  When it runs it first deletes the
car's records, then re-inserts as on INSERT. -/
def update_broker_commissions_v18_upd (old new : Car) (nid : Nat)
    (s : State) : State :=
  if old.broker_id ≠ new.broker_id ∨
     old.broker_commission_value ≠ new.broker_commission_value then
    update_broker_commissions_v18_ins new nid
      { s with commissions := deleteByCar old.id s.commissions }
  else s

/-- Embedding of `update_broker_commissions_on_car_update` from
`20250523120000_final_security_and_datatable_updates.sql` (lines 78-101):
runs only on the `available → sold` transition of a car with a broker;
inserts `ON CONFLICT (car_id) DO NOTHING`. -/
def update_broker_commissions_v23 (old new : Car) (nid : Nat) (s : State) :
    State :=
  if new.status = CarStatus.sold ∧ old.status = CarStatus.available ∧
     new.broker_id ≠ none then
    let amt := calculate_broker_commission_v23 new
    if amt > 0 then
      if s.commissions.any (fun r => r.car_id == new.id) then s
      else
        { s with commissions :=
            s.commissions ++ [⟨nid, new.broker_id, new.id, amt, false, none⟩] }
    else s
  else s

/-- Embedding of `update_broker_commissions_on_car_update` from `unnamed/part_003`
(lines 166-193): when `NEW.broker_id` is set and broker, value or price
changed, delete all the car's records (paid ones included) and insert a
fresh unpaid one when the amount is positive; when the broker was removed,
delete all the car's records. -/
def update_broker_commissions_p3 (old new : Car) (nid : Nat) (s : State) :
    State :=
  if new.broker_id ≠ none ∧
     (old.broker_id ≠ new.broker_id ∨
      old.broker_commission_value ≠ new.broker_commission_value ∨
      old.purchase_price ≠ new.purchase_price) then
    let amt := calculate_broker_commission_p3 new
    let s1 := { s with commissions := deleteByCar new.id s.commissions }
    if amt > 0 then
      { s1 with commissions :=
          s1.commissions ++ [⟨nid, new.broker_id, new.id, amt, false, none⟩] }
    else s1
  else if new.broker_id = none ∧ old.broker_id ≠ none then
    { s with commissions := deleteByCar new.id s.commissions }
  else s

/-- Embedding of `update_broker_totals` from
`20250101000018_definitive_security_and_dependency_fix.sql` (lines 89-101):
`UPDATE brokers SET total_commission_due = total_commission_due - p_amount,
total_commission_paid = total_commission_paid + p_amount WHERE id =
p_broker_id`. -/
def update_broker_totals (bid : Nat) (amt : Rat) (bs : List Broker) :
    List Broker :=
  bs.map (fun b =>
    if b.id = bid then
      { b with total_commission_due := b.total_commission_due - amt,
               total_commission_paid := b.total_commission_paid + amt }
    else b)

/-- Embedding of `SELECT ... FROM cars WHERE id = cid` (first matching row). -/
def findCar (cid : Nat) (cs : List Car) : Option Car :=
  cs.find? (fun c => c.id == cid)

/-- Embedding of `handle_car_sale` from `001_create_showroom_schema.sql` (lines 343-370),
fired AFTER INSERT on `payments`: on a `full_purchase` payment mark the car
sold, compute the commission with `calculate_broker_commission`, and when
it is positive insert an unpaid commission record (only if the car has a
broker) and add the amount to that broker's `total_commission_due`. -/
def handle_car_sale (p : Payment) (nid : Nat) (s : State) : State :=
  if p.payment_type = PaymentType.full_purchase then
    let cars1 := s.cars.map (fun c =>
      if c.id = p.car_id then { c with status := CarStatus.sold } else c)
    let s1 : State := { s with cars := cars1 }
    let amt? : Option Rat :=
      match findCar p.car_id cars1 with
      | some c => calculate_broker_commission_001 c
      | none => some 0
    match amt? with
    | some amt =>
        if amt > 0 then
          match findCar p.car_id cars1 with
          | some c =>
              match c.broker_id with
              | some b =>
                  { s1 with
                    commissions :=
                      s1.commissions ++ [⟨nid, some b, p.car_id, amt, false, none⟩],
                    brokers := s1.brokers.map (fun br =>
                      if br.id = b then
                        { br with total_commission_due :=
                            br.total_commission_due + amt }
                      else br) }
              | none => s1
          | none => s1
        else s1
    | none => s1
  else s

/-- Embedding of `UPDATE broker_commissions SET is_paid = true, paid_date = d WHERE id =
cid` — the record half of `markCommissionPaid` in `src/pages/Brokers.tsx`
(lines 111-117). -/
def setCommissionPaid (cid : Nat) (d : Nat) (rs : List CommissionRecord) :
    List CommissionRecord :=
  rs.map (fun r =>
    if r.id = cid then { r with is_paid := true, paid_date := some d } else r)

/-- The mark-paid transition at store level: the record update of
`markCommissionPaid` (`src/pages/Brokers.tsx`) combined with the
`update_broker_totals` RPC of the migrations, applied with the paid
record's broker and amount. -/
def markCommissionPaid_sql (cid : Nat) (d : Nat) (bid : Nat) (amt : Rat)
    (s : State) : State :=
  { s with commissions := setCommissionPaid cid d s.commissions,
           brokers := update_broker_totals bid amt s.brokers }

/-- The balance invariant of the spec: every broker's
`total_commission_due` equals the sum of `commission_amount` over the
unpaid commission records attributed to it. -/
def sumUnpaidFor (bid : Nat) (rs : List CommissionRecord) : Rat :=
  rs.foldr (fun r acc =>
    if r.broker_id = some bid ∧ r.is_paid = false then
      r.commission_amount + acc
    else acc) 0

/-- For all brokers, `total_commission_due` equals the sum of unpaid
commission amounts attributed to that broker. -/
def brokerInvariant (s : State) : Prop :=
  ∀ b ∈ s.brokers, b.total_commission_due = sumUnpaidFor b.id s.commissions

instance (s : State) : Decidable (brokerInvariant s) :=
  List.decidableBAll _ s.brokers

/-- The column sets on which `broker_commissions` carries a uniqueness
constraint in `001_create_showroom_schema.sql` (lines 113-121): only the
`id` primary key.  No `UNIQUE` clause or later `ALTER TABLE` covers
`car_id`. -/
def broker_commissions_unique_keys : List (List String) :=
  [["id"]]

/-- A JavaScript number: either NaN or a numeric value. -/
inductive JSNum
  | nan
  | num (q : Rat)
deriving DecidableEq

/-- JavaScript `+` on numbers: NaN propagates (and `undefined + x` is
modelled by passing `nan`). -/
def jsAdd : JSNum → JSNum → JSNum
  | JSNum.num a, JSNum.num b => JSNum.num (a + b)
  | _, _ => JSNum.nan

/-- JavaScript `-` on numbers: NaN propagates. -/
def jsSub : JSNum → JSNum → JSNum
  | JSNum.num a, JSNum.num b => JSNum.num (a - b)
  | _, _ => JSNum.nan

/-- A broker row as held in the client's `brokers` React state in
`src/pages/Brokers.tsx`; the totals are JavaScript numbers. -/
structure BrokerRow where
  id : Nat
  total_commission_due : JSNum
  total_commission_paid : JSNum
deriving DecidableEq

/-- The client-visible store: broker rows plus commission records. -/
structure ClientState where
  brokers : List BrokerRow
  commissions : List CommissionRecord
deriving DecidableEq

/-- Embedding of `brokers.find(b => b.id === brokerId)` from `src/pages/Brokers.tsx`. -/
def findBroker (bs : List BrokerRow) (bid : Nat) : Option BrokerRow :=
  bs.find? (fun b => b.id == bid)

/-- Value of `brokers.find(...)?.total_commission_paid`: `undefined` (here NaN
after the addition) when the broker is absent from the cached list. -/
def optPaid (b? : Option BrokerRow) : JSNum :=
  match b? with
  | some b => b.total_commission_paid
  | none => JSNum.nan

/-- Value of `brokers.find(...)?.total_commission_due`, as for `optPaid`. -/
def optDue (b? : Option BrokerRow) : JSNum :=
  match b? with
  | some b => b.total_commission_due
  | none => JSNum.nan

/-- First awaited request of `markCommissionPaid`
(`src/pages/Brokers.tsx` lines 111-119): set the record paid with today's
date.  Broker rows are untouched. -/
def markCommissionPaidStep1 (today : Nat) (commissionId : Nat)
    (s : ClientState) : ClientState :=
  { s with commissions := setCommissionPaid commissionId today s.commissions }

/-- Second awaited request of `markCommissionPaid`
(`src/pages/Brokers.tsx` lines 122-130): overwrite the broker row's totals
with values computed from the CACHED `brokers` list (read-modify-write on
the client snapshot, not an atomic increment). -/
def markCommissionPaidBrokerStep (cache : List BrokerRow) (brokerId : Nat)
    (amount : Rat) (s : ClientState) : ClientState :=
  let newPaid := jsAdd (optPaid (findBroker cache brokerId)) (JSNum.num amount)
  let newDue := jsSub (optDue (findBroker cache brokerId)) (JSNum.num amount)
  { s with brokers := s.brokers.map (fun b =>
      if b.id = brokerId then
        { b with total_commission_paid := newPaid,
                 total_commission_due := newDue }
      else b) }

/-- Embedding of `markCommissionPaid` from `src/pages/Brokers.tsx` (lines 108-137): the
two requests issued sequentially, with no precondition check and no
transaction around them. -/
def markCommissionPaid (cache : List BrokerRow) (today : Nat)
    (commissionId brokerId : Nat) (amount : Rat) (s : ClientState) :
    ClientState :=
  markCommissionPaidBrokerStep cache brokerId amount
    (markCommissionPaidStep1 today commissionId s)

/-! ### Helper lemmas -/

/-- Mapping a function that fixes every member of a list is the identity. -/
lemma list_map_eq_self {α : Type} (g : α → α) (l : List α)
    (h : ∀ x ∈ l, g x = x) : l.map g = l := by
  induction l with
  | nil => rfl
  | cons a tl ih =>
      simp only [List.map_cons, List.cons.injEq]
      exact ⟨h a (List.mem_cons_self a tl), ih fun x hx => h x (List.mem_cons_of_mem a hx)⟩

/-- Deleting a car's records twice is the same as deleting them once. -/
lemma deleteByCar_idem (cid : Nat) (rs : List CommissionRecord) :
    deleteByCar cid (deleteByCar cid rs) = deleteByCar cid rs := by
  simp [deleteByCar, List.filter_filter]

/-- After a v12 upsert there is a record for the car. -/
lemma upsertByCar_v12_any (n b cid : Nat) (amt : Rat)
    (rs : List CommissionRecord) :
    (upsertByCar_v12 n b cid amt rs).any (fun r => r.car_id == cid) = true := by
  unfold upsertByCar_v12
  by_cases h : rs.any (fun r => r.car_id == cid) = true
  · rw [if_pos h, List.any_map]
    rw [List.any_eq_true] at h ⊢
    obtain ⟨r, hr, hcid⟩ := h
    refine ⟨r, hr, ?_⟩
    simp only [beq_iff_eq] at hcid
    simp [Function.comp, hcid]
  · rw [if_neg h]
    simp

/-- Every record for the car after a v12 upsert carries the upserted
broker, amount and unpaid flag. -/
lemma upsertByCar_v12_mem (n b cid : Nat) (amt : Rat)
    (rs : List CommissionRecord) (r : CommissionRecord)
    (hr : r ∈ upsertByCar_v12 n b cid amt rs) (hc : r.car_id = cid) :
    r.broker_id = some b ∧ r.commission_amount = amt ∧ r.is_paid = false := by
  unfold upsertByCar_v12 at hr
  by_cases h : rs.any (fun r => r.car_id == cid) = true
  · rw [if_pos h, List.mem_map] at hr
    obtain ⟨x, hx, rfl⟩ := hr
    by_cases hxc : x.car_id = cid
    · simp [hxc]
    · rw [if_neg hxc] at hc ⊢
      exact absurd hc hxc
  · rw [if_neg h, List.mem_append] at hr
    rcases hr with hr | hr
    · exfalso
      apply h
      rw [List.any_eq_true]
      exact ⟨r, hr, by simp [hc]⟩
    · simp only [List.mem_singleton] at hr
      subst hr
      simp

/-- Upserting the same broker and amount a second time changes nothing. -/
lemma upsertByCar_v12_absorb (n2 b cid : Nat) (amt : Rat)
    (l1 : List CommissionRecord)
    (hany : l1.any (fun r => r.car_id == cid) = true)
    (hfields : ∀ r ∈ l1, r.car_id = cid →
      r.broker_id = some b ∧ r.commission_amount = amt ∧ r.is_paid = false) :
    upsertByCar_v12 n2 b cid amt l1 = l1 := by
  unfold upsertByCar_v12
  rw [if_pos hany]
  apply list_map_eq_self
  intro x hx
  by_cases hxc : x.car_id = cid
  · obtain ⟨h1, h2, h3⟩ := hfields x hx hxc
    rw [if_pos hxc]
    cases x
    simp_all
  · rw [if_neg hxc]

/-! ### C5: idempotence of reconciliation -/

/-- C5.  The Commission Recorder reconciliation of the two cited revisions
is idempotent: re-firing the `20250101000012` trigger with OLD = NEW (no
intervening change to the car's fields) is a no-op, firing its INSERT
branch twice in a row leaves the state of the first run unchanged, and
re-firing the `20250523120000` trigger with OLD = NEW is a no-op — no
duplicate records and no churn on the paid flag, amount or dates. -/
theorem C5_reconciliation_idempotent :
    (∀ (c : Car) (n : Nat) (s : State),
      update_broker_commissions_v12_upd c c n s = s) ∧
    (∀ (c : Car) (n1 n2 : Nat) (s : State),
      update_broker_commissions_v12_ins c n2
          (update_broker_commissions_v12_ins c n1 s) =
        update_broker_commissions_v12_ins c n1 s) ∧
    (∀ (c : Car) (n : Nat) (s : State),
      update_broker_commissions_v23 c c n s = s) := by
  refine ⟨?_, ?_, ?_⟩
  · intro c n s
    simp [update_broker_commissions_v12_upd]
  · intro c n1 n2 s
    unfold update_broker_commissions_v12_ins
    rcases hb : c.broker_id with _ | bb
    · simp
    · simp only [hb, ne_eq, reduceCtorEq, not_false_eq_true, if_true]
      unfold update_broker_commissions_v12_body
      by_cases hamt : calculate_broker_commission_v12 c > 0
      · simp only [hamt, if_true, hb, Option.getD_some]
        have hany := upsertByCar_v12_any n1 bb c.id
          (calculate_broker_commission_v12 c) s.commissions
        have habs := upsertByCar_v12_absorb n2 bb c.id
          (calculate_broker_commission_v12 c)
          (upsertByCar_v12 n1 bb c.id (calculate_broker_commission_v12 c)
            s.commissions) hany
          (fun r hr hc => upsertByCar_v12_mem n1 bb c.id
            (calculate_broker_commission_v12 c) s.commissions r hr hc)
        cases s
        simp_all
      · simp only [hamt, if_false]
        cases s
        simp_all [deleteByCar_idem]
  · intro c n s
    cases hst : c.status <;> simp [update_broker_commissions_v23, hst]

/-! ### C6: calculator vs reference definition -/

/-- C6 counterexample.  The `20250101000012` revision of
`calculate_broker_commission` does not return 0 on an absent commission
type or a non-positive commission value: with a broker assigned, an absent
type with value 10000 yields 10000 (the ELSE branch treats it as fixed)
and a fixed value of -5 is returned verbatim, where the reference
`computeCommission` returns 0 in both cases. -/
theorem C6_calculator_counterexample :
    calculate_broker_commission_v12 (mkCar 500000 (some 1) none (some 10000))
      = 10000 ∧
    computeCommission_spec 500000 none (some 10000) = 0 ∧
    calculate_broker_commission_v12
      (mkCar 500000 (some 1) (some CommissionType.fixed) (some (-5))) = -5 ∧
    computeCommission_spec 500000 (some CommissionType.fixed) (some (-5))
      = 0 := by
  refine ⟨by simp [calculate_broker_commission_v12, mkCar], rfl,
    by simp [calculate_broker_commission_v12, mkCar],
    by norm_num [computeCommission_spec]⟩

/-- C6 (amended).  The `20250101000000` revision of
`calculate_broker_commission` matches the reference `computeCommission`
exactly on every car with a broker assigned (returning 0 whenever the type
is absent, the value is absent, or the value is non-positive); the later
`20250101000012` revision diverges on those degenerate inputs
(see the counterexample) but still satisfies all four concrete
evaluations demanded by the spec. -/
theorem C6_calculator_amended :
    (∀ (price : Rat) (t : Option CommissionType) (v : Option Rat),
      calculate_broker_commission_v0 (mkCar price (some 1) t v) =
        computeCommission_spec price t v) ∧
    calculate_broker_commission_v12
      (mkCar 500000 (some 1) (some CommissionType.percentage) (some 5))
      = 25000 ∧
    calculate_broker_commission_v12
      (mkCar 500000 (some 1) (some CommissionType.fixed) (some 10000))
      = 10000 ∧
    calculate_broker_commission_v12
      (mkCar 500000 (some 1) (some CommissionType.percentage) (some 0))
      = 0 ∧
    calculate_broker_commission_v12 (mkCar 500000 (some 1) none none)
      = 0 := by
  refine ⟨?_,
    by simp [calculate_broker_commission_v12, mkCar]; norm_num,
    by simp [calculate_broker_commission_v12, mkCar],
    by simp [calculate_broker_commission_v12, mkCar], rfl⟩
  intro price t v
  rcases v with _ | x
  · rcases t with _ | t
    · rfl
    · cases t <;> rfl
  · rcases t with _ | t
    · show (if x > 0 then (0 : Rat) else 0) = 0
      split <;> rfl
    · cases t
      · show (if x > 0 then x else 0) = if x ≤ 0 then 0 else x
        by_cases h : x > 0
        · rw [if_pos h, if_neg (by linarith)]
        · rw [if_neg h, if_pos (by linarith)]
      · show (if x > 0 then price * (x / 100) else 0)
            = if x ≤ 0 then 0 else price * x / 100
        by_cases h : x > 0
        · rw [if_pos h, if_neg (by linarith), mul_div_assoc]
        · rw [if_neg h, if_pos (by linarith)]

/-! ### Client-side helper lemmas -/

/-- Every record for the marked id is flagged paid after the record
update. -/
lemma setCommissionPaid_all_paid (cid d : Nat) (rs : List CommissionRecord) :
    ((setCommissionPaid cid d rs).filter (fun r => r.id == cid)).all
      (fun r => r.is_paid) = true := by
  induction rs with
  | nil => rfl
  | cons a tl ih =>
      simp only [setCommissionPaid, List.map_cons] at *
      by_cases h : a.id = cid
      · rw [if_pos h]
        simp only [List.filter_cons]
        simp [h, ih]
      · rw [if_neg h]
        simp only [List.filter_cons]
        simp [h, ih]

/-- Looking up the broker after the broker-row overwrite returns the row
with the overwritten totals. -/
lemma findBroker_after_write (l : List BrokerRow) (bid : Nat) (b : BrokerRow)
    (P D : JSNum) (h : findBroker l bid = some b) :
    findBroker (l.map (fun x =>
        if x.id = bid then
          { x with total_commission_paid := P, total_commission_due := D }
        else x)) bid =
      some { b with total_commission_paid := P, total_commission_due := D } := by
  induction l with
  | nil => simp [findBroker] at h
  | cons a tl ih =>
      by_cases ha : a.id = bid
      · have hfind : findBroker (a :: tl) bid = some a := by
          simp [findBroker, List.find?_cons_of_pos, ha]
        rw [hfind] at h
        injection h with h
        subst h
        simp [findBroker, List.find?_cons_of_pos, ha]
      · have hfind : findBroker (a :: tl) bid = findBroker tl bid := by
          simp [findBroker, List.find?_cons_of_neg, ha]
        rw [hfind] at h
        simp only [List.map_cons]
        rw [if_neg ha]
        have : findBroker (a :: tl.map fun x =>
            if x.id = bid then
              { x with total_commission_paid := P, total_commission_due := D }
            else x) bid = findBroker (tl.map fun x =>
            if x.id = bid then
              { x with total_commission_paid := P, total_commission_due := D }
            else x) bid := by
          simp [findBroker, List.find?_cons_of_neg, ha]
        rw [this]
        exact ih h

/-- Overwriting the broker row with the same absolute totals twice is the
same as doing it once. -/
lemma brokerWrite_absorb (l : List BrokerRow) (bid : Nat) (P D : JSNum) :
    ((l.map (fun x =>
        if x.id = bid then
          { x with total_commission_paid := P, total_commission_due := D }
        else x)).map (fun x =>
        if x.id = bid then
          { x with total_commission_paid := P, total_commission_due := D }
        else x)) =
      l.map (fun x =>
        if x.id = bid then
          { x with total_commission_paid := P, total_commission_due := D }
        else x) := by
  apply list_map_eq_self
  intro y hy
  rw [List.mem_map] at hy
  obtain ⟨x, _, rfl⟩ := hy
  by_cases hx : x.id = bid
  · rw [if_pos hx]
    rw [if_pos hx]
  · rw [if_neg hx, if_neg hx]

/-! ### C3: atomicity of markCommissionPaid -/

/-- C3 counterexample.  `markCommissionPaid` is the record update followed
by the broker-totals update as two separate requests; at this concrete
store, the state in which an injected failure of the broker-totals step
leaves the system (the state right after the first request) already has
the record marked paid with a paid date while both broker totals still
hold their old values — the record does not remain unpaid and the partial
effect is observable, so the operation is not atomic. -/
theorem C3_atomicity_counterexample :
    markCommissionPaidStep1 7 10
        ⟨[⟨1, JSNum.num 100, JSNum.num 0⟩], [⟨10, some 1, 1, 100, false, none⟩]⟩ =
      ⟨[⟨1, JSNum.num 100, JSNum.num 0⟩], [⟨10, some 1, 1, 100, true, some 7⟩]⟩ ∧
    markCommissionPaid [⟨1, JSNum.num 100, JSNum.num 0⟩] 7 10 1 100
        ⟨[⟨1, JSNum.num 100, JSNum.num 0⟩], [⟨10, some 1, 1, 100, false, none⟩]⟩ =
      markCommissionPaidBrokerStep [⟨1, JSNum.num 100, JSNum.num 0⟩] 1 100
        (markCommissionPaidStep1 7 10
          ⟨[⟨1, JSNum.num 100, JSNum.num 0⟩], [⟨10, some 1, 1, 100, false, none⟩]⟩) := by
  exact ⟨rfl, rfl⟩

/-- C3 (amended).  `markCommissionPaid` is not atomic: it is exactly the
sequential composition of the record-paid request and the broker-totals
request.  After the first request alone — the state in which a failure of
the broker-totals step leaves the store, since nothing is rolled back —
the broker rows are unchanged while every record with the given id is
already flagged paid. -/
theorem C3_atomicity_amended (cache : List BrokerRow) (today cid bid : Nat)
    (amt : Rat) (s : ClientState) :
    markCommissionPaid cache today cid bid amt s =
      markCommissionPaidBrokerStep cache bid amt
        (markCommissionPaidStep1 today cid s) ∧
    (markCommissionPaidStep1 today cid s).brokers = s.brokers ∧
    ((markCommissionPaidStep1 today cid s).commissions.filter
        (fun r => r.id == cid)).all (fun r => r.is_paid) = true := by
  exact ⟨rfl, rfl, setCommissionPaid_all_paid cid today s.commissions⟩

/-! ### C10: cached read-modify-write in markCommissionPaid -/

/-- C10.  `markCommissionPaid` computes the broker's new totals from the
client's cached `brokers` list rather than as an atomic increment: when
the target broker id is absent from that cached list the lookup yields
`undefined` and the operation writes NaN into both
`total_commission_paid` and `total_commission_due` of every broker row
with that id; and two calls computed from the same cached snapshot write
identical absolute totals, so the broker rows after the second call equal
the rows after the first — one adjustment is lost. -/
theorem C10_cached_read_modify_write (cache : List BrokerRow)
    (d1 d2 cid bid : Nat) (amt : Rat) (s : ClientState) :
    (findBroker cache bid = none →
      ∀ b' ∈ (markCommissionPaid cache d1 cid bid amt s).brokers,
        b'.id = bid →
          b'.total_commission_paid = JSNum.nan ∧
          b'.total_commission_due = JSNum.nan) ∧
    (markCommissionPaid cache d2 cid bid amt
        (markCommissionPaid cache d1 cid bid amt s)).brokers =
      (markCommissionPaid cache d1 cid bid amt s).brokers := by
  constructor
  · intro h b' hb' hid
    simp only [markCommissionPaid, markCommissionPaidBrokerStep,
      markCommissionPaidStep1, h, optPaid, optDue, jsAdd, jsSub] at hb'
    rw [List.mem_map] at hb'
    obtain ⟨x, _, rfl⟩ := hb'
    by_cases hx : x.id = bid
    · rw [if_pos hx]
      exact ⟨rfl, rfl⟩
    · rw [if_neg hx] at hid ⊢
      exact absurd hid hx
  · show ((s.brokers.map _).map _) = s.brokers.map _
    exact brokerWrite_absorb s.brokers bid _ _

/-- C10 witness: with an empty cached list and broker 1 present in the
store, the call writes NaN into both totals, and a repeated call from the
same snapshot leaves the broker rows of the first call unchanged. -/
theorem C10_cached_read_modify_write_witness :
    (∀ b' ∈ (markCommissionPaid [] 3 10 1 100
        ⟨[⟨1, JSNum.num 5, JSNum.num 5⟩], []⟩).brokers,
      b'.id = 1 →
        b'.total_commission_paid = JSNum.nan ∧
        b'.total_commission_due = JSNum.nan) ∧
    (markCommissionPaid [] 4 10 1 100 (markCommissionPaid [] 3 10 1 100
        ⟨[⟨1, JSNum.num 5, JSNum.num 5⟩], []⟩)).brokers =
      (markCommissionPaid [] 3 10 1 100
        ⟨[⟨1, JSNum.num 5, JSNum.num 5⟩], []⟩).brokers :=
  ⟨(C10_cached_read_modify_write [] 3 4 10 1 100
      ⟨[⟨1, JSNum.num 5, JSNum.num 5⟩], []⟩).1 rfl,
   (C10_cached_read_modify_write [] 3 4 10 1 100
      ⟨[⟨1, JSNum.num 5, JSNum.num 5⟩], []⟩).2⟩

/-! ### C2: double mark-paid -/

/-- C2 counterexample.  Calling `markCommissionPaid` twice on the same
record (with the cached broker list refreshed between the calls, as
`fetchBrokers` does) is not a no-op: at this concrete store the first
call leaves broker 1 with due 0 / paid 100, and the second call adjusts
the totals again to due -100 / paid 200 — there is no AlreadyPaid guard
and the second call does not leave the state unchanged. -/
theorem C2_double_pay_counterexample :
    let s0 : ClientState :=
      ⟨[⟨1, JSNum.num 100, JSNum.num 0⟩], [⟨10, some 1, 1, 100, false, none⟩]⟩
    let c1 := markCommissionPaid s0.brokers 7 10 1 100 s0
    let c2 := markCommissionPaid c1.brokers 7 10 1 100 c1
    c1.brokers = [⟨1, JSNum.num 0, JSNum.num 100⟩] ∧
    c2.brokers = [⟨1, JSNum.num (-100), JSNum.num 200⟩] ∧ c2 ≠ c1 := by
  intro s0 c1 c2
  have h1 : c1.brokers = [⟨1, JSNum.num 0, JSNum.num 100⟩] := by
    show (s0.brokers.map _) = _
    norm_num [s0, markCommissionPaid, markCommissionPaidBrokerStep,
      markCommissionPaidStep1, findBroker, List.find?, optPaid, optDue,
      jsAdd, jsSub]
  have h2 : c2.brokers = [⟨1, JSNum.num (-100), JSNum.num 200⟩] := by
    show (c1.brokers.map _) = _
    rw [h1]
    norm_num [c1, h1, markCommissionPaid, markCommissionPaidBrokerStep,
      markCommissionPaidStep1, findBroker, List.find?, optPaid, optDue,
      jsAdd, jsSub]
  refine ⟨h1, h2, ?_⟩
  intro heq
  have hbr : c2.brokers = c1.brokers := by rw [heq]
  rw [h1, h2] at hbr
  simp only [List.cons.injEq, BrokerRow.mk.injEq, JSNum.num.injEq] at hbr
  norm_num at hbr

/-- C2 (amended).  `markCommissionPaid` has no already-paid precondition
and signals no AlreadyPaid: each call overwrites the broker row with
totals recomputed from its cached list, so a second call on the same
record made with a refreshed cache (as after `fetchBrokers`) applies the
balance adjustment a second time — the broker ends with
`paid + amount + amount` and `due - amount - amount`, not with the totals
of the first call. -/
theorem C2_double_pay_amended (s : ClientState) (d1 d2 cid bid : Nat)
    (amt : Rat) (b : BrokerRow) (h : findBroker s.brokers bid = some b) :
    findBroker (markCommissionPaid
        (markCommissionPaid s.brokers d1 cid bid amt s).brokers d2 cid bid amt
        (markCommissionPaid s.brokers d1 cid bid amt s)).brokers bid =
      some { b with
        total_commission_paid :=
          jsAdd (jsAdd b.total_commission_paid (JSNum.num amt)) (JSNum.num amt),
        total_commission_due :=
          jsSub (jsSub b.total_commission_due (JSNum.num amt)) (JSNum.num amt) } := by
  have hb1 : findBroker
      (markCommissionPaid s.brokers d1 cid bid amt s).brokers bid =
      some { b with
        total_commission_paid :=
          jsAdd (optPaid (findBroker s.brokers bid)) (JSNum.num amt),
        total_commission_due :=
          jsSub (optDue (findBroker s.brokers bid)) (JSNum.num amt) } :=
    findBroker_after_write s.brokers bid b _ _ h
  have h3 : findBroker (markCommissionPaid
      (markCommissionPaid s.brokers d1 cid bid amt s).brokers d2 cid bid amt
      (markCommissionPaid s.brokers d1 cid bid amt s)).brokers bid =
      some { b with
        total_commission_paid :=
          jsAdd (optPaid (findBroker
            (markCommissionPaid s.brokers d1 cid bid amt s).brokers bid))
            (JSNum.num amt),
        total_commission_due :=
          jsSub (optDue (findBroker
            (markCommissionPaid s.brokers d1 cid bid amt s).brokers bid))
            (JSNum.num amt) } :=
    findBroker_after_write
      (markCommissionPaid s.brokers d1 cid bid amt s).brokers bid
      { b with
        total_commission_paid :=
          jsAdd (optPaid (findBroker s.brokers bid)) (JSNum.num amt),
        total_commission_due :=
          jsSub (optDue (findBroker s.brokers bid)) (JSNum.num amt) } _ _ hb1
  rw [hb1, h] at h3
  simp only [optPaid, optDue] at h3
  exact h3

/-- C2 witness: at a concrete store with broker 1 holding due 100 / paid
0, the second refreshed-cache call leaves broker 1 with paid 200 and due
-100. -/
theorem C2_double_pay_amended_witness :
    findBroker (markCommissionPaid
        (markCommissionPaid
          [⟨1, JSNum.num 100, JSNum.num 0⟩] 7 10 1 100
          ⟨[⟨1, JSNum.num 100, JSNum.num 0⟩],
            [⟨10, some 1, 1, 100, false, none⟩]⟩).brokers 8 10 1 100
        (markCommissionPaid
          [⟨1, JSNum.num 100, JSNum.num 0⟩] 7 10 1 100
          ⟨[⟨1, JSNum.num 100, JSNum.num 0⟩],
            [⟨10, some 1, 1, 100, false, none⟩]⟩)).brokers 1 =
      some ⟨1, jsSub (jsSub (JSNum.num 100) (JSNum.num 100)) (JSNum.num 100),
        jsAdd (jsAdd (JSNum.num 0) (JSNum.num 100)) (JSNum.num 100)⟩ :=
  C2_double_pay_amended
    ⟨[⟨1, JSNum.num 100, JSNum.num 0⟩], [⟨10, some 1, 1, 100, false, none⟩]⟩
    7 8 10 1 100 ⟨1, JSNum.num 100, JSNum.num 0⟩ rfl

/-! ### Lemmas on the v0 upsert and the unconditional delete -/

/-- Records surviving `deleteByCar` are for other cars. -/
lemma deleteByCar_mem (cid : Nat) (rs : List CommissionRecord)
    (r : CommissionRecord) (hr : r ∈ deleteByCar cid rs) : r.car_id ≠ cid := by
  have := List.of_mem_filter hr
  simpa using this

/-- Every record for the car after a v0 upsert carries the upserted
broker and amount, is unpaid, and has no paid date. -/
lemma upsertByCar_v0_mem (n b cid : Nat) (amt : Rat)
    (rs : List CommissionRecord) (r : CommissionRecord)
    (hr : r ∈ upsertByCar_v0 n b cid amt rs) (hc : r.car_id = cid) :
    r.broker_id = some b ∧ r.commission_amount = amt ∧ r.is_paid = false ∧
      r.paid_date = none := by
  unfold upsertByCar_v0 at hr
  by_cases h : rs.any (fun r => r.car_id == cid) = true
  · rw [if_pos h, List.mem_map] at hr
    obtain ⟨x, hx, rfl⟩ := hr
    by_cases hxc : x.car_id = cid
    · simp [hxc]
    · rw [if_neg hxc] at hc ⊢
      exact absurd hc hxc
  · rw [if_neg h, List.mem_append] at hr
    rcases hr with hr | hr
    · exfalso
      apply h
      rw [List.any_eq_true]
      exact ⟨r, hr, by simp [hc]⟩
    · simp only [List.mem_singleton] at hr
      subst hr
      simp

/-! ### C4: paid records are overwritten by reconciliation -/

/-- C4 counterexample.  A commission record already marked paid (amount
100, paid on day 3) for car 1 does not survive a purchase-price update:
the `20250101000000` reconciliation upserts over it — the stored amount
becomes the recomputed 20, the paid flag is cleared and the paid date is
nulled; the `unnamed/part_003` reconciliation deletes it and inserts a
fresh unpaid record.  The claim that a paid record is never overwritten
by recalculation fails at this input. -/
theorem C4_paid_overwrite_counterexample :
    (update_broker_commissions_v0
        ⟨1, 200, some 1, some CommissionType.percentage, some 10,
          CarStatus.available⟩ 9
        ⟨[], [], [⟨5, some 1, 1, 100, true, some 3⟩]⟩).commissions =
      [⟨5, some 1, 1, 20, false, none⟩] ∧
    (update_broker_commissions_p3
        ⟨1, 100, some 1, some CommissionType.percentage, some 10,
          CarStatus.available⟩
        ⟨1, 200, some 1, some CommissionType.percentage, some 10,
          CarStatus.available⟩ 9
        ⟨[], [], [⟨5, some 1, 1, 100, true, some 3⟩]⟩).commissions =
      [⟨9, some 1, 1, 20, false, none⟩] := by
  constructor
  · norm_num [update_broker_commissions_v0, calculate_broker_commission_v0,
      upsertByCar_v0, List.any_cons]
  · norm_num [update_broker_commissions_p3, calculate_broker_commission_p3,
      deleteByCar, List.filter]
    simp

/-- C4 (amended).  Under the cited reconciliation revisions a paid record
is not immutable: after the `20250101000000` reconciliation runs for a
car, every commission record of that car is unpaid (the upsert resets the
paid flag and paid date, the insert creates an unpaid record, and the
delete branch removes the car's records outright); likewise for the
`unnamed/part_003` reconciliation whenever its recalculation branch fires
(broker set and purchase price changed). -/
theorem C4_paid_overwrite_amended :
    (∀ (c : Car) (n : Nat) (s : State) (r : CommissionRecord),
      r ∈ (update_broker_commissions_v0 c n s).commissions →
      r.car_id = c.id → r.is_paid = false) ∧
    (∀ (old new : Car) (n : Nat) (s : State) (r : CommissionRecord),
      new.broker_id ≠ none →
      old.purchase_price ≠ new.purchase_price →
      r ∈ (update_broker_commissions_p3 old new n s).commissions →
      r.car_id = new.id → r.is_paid = false) := by
  constructor
  · intro c n s r hr hc
    unfold update_broker_commissions_v0 at hr
    rcases hb : c.broker_id with _ | bb
    · rw [hb] at hr
      exact absurd hc (deleteByCar_mem c.id s.commissions r hr)
    · rw [hb] at hr
      by_cases hamt : calculate_broker_commission_v0 c > 0
      · simp only [hamt, if_true] at hr
        exact (upsertByCar_v0_mem n bb c.id _ s.commissions r hr hc).2.2.1
      · simp only [hamt, if_false] at hr
        exact absurd hc (deleteByCar_mem c.id s.commissions r hr)
  · intro old new n s r hbn hp hr hc
    unfold update_broker_commissions_p3 at hr
    rcases hb : new.broker_id with _ | bb
    · exact absurd hb hbn
    · rw [hb] at hr
      simp only [ne_eq, reduceCtorEq, not_false_eq_true, true_and, hp,
        or_true, if_true] at hr
      by_cases hamt : calculate_broker_commission_p3 new > 0
      · simp only [hamt, if_true] at hr
        simp only [List.mem_append, List.mem_singleton] at hr
        rcases hr with hr | hr
        · exact absurd hc (deleteByCar_mem new.id s.commissions r hr)
        · subst hr
          rfl
      · simp only [hamt, if_false] at hr
        exact absurd hc (deleteByCar_mem new.id s.commissions r hr)

/-- C4 witness: the amended theorem applied at the concrete overwritten
record of the counterexample state. -/
theorem C4_paid_overwrite_amended_witness :
    (⟨5, some 1, 1, (20 : Rat), false, none⟩ : CommissionRecord).is_paid
      = false :=
  C4_paid_overwrite_amended.1
    ⟨1, 200, some 1, some CommissionType.percentage, some 10,
      CarStatus.available⟩ 9
    ⟨[], [], [⟨5, some 1, 1, 100, true, some 3⟩]⟩
    ⟨5, some 1, 1, 20, false, none⟩
    (by norm_num [update_broker_commissions_v0,
      calculate_broker_commission_v0, upsertByCar_v0, List.any_cons]) rfl

/-! ### C7: paid history is deleted, not preserved -/

/-- C7 counterexample.  When a car's broker is removed, the cited
reconciliation revisions delete even a PAID commission record: at this
concrete store the paid record (amount 100, paid on day 3) for car 1 is
gone after either the `20250101000000` reconciliation (broker unset) or
the `unnamed/part_003` reconciliation (broker removed) — the delete has no
`is_paid = false` filter, so paid history does not survive. -/
theorem C7_paid_delete_counterexample :
    (update_broker_commissions_v0
        ⟨1, 100, none, some CommissionType.fixed, some 50,
          CarStatus.available⟩ 9
        ⟨[], [], [⟨5, some 1, 1, 100, true, some 3⟩]⟩).commissions = [] ∧
    (update_broker_commissions_p3
        ⟨1, 100, some 1, some CommissionType.fixed, some 50,
          CarStatus.available⟩
        ⟨1, 100, none, some CommissionType.fixed, some 50,
          CarStatus.available⟩ 9
        ⟨[], [], [⟨5, some 1, 1, 100, true, some 3⟩]⟩).commissions = [] := by
  constructor
  · norm_num [update_broker_commissions_v0, calculate_broker_commission_v0,
      deleteByCar, List.filter]
  · norm_num [update_broker_commissions_p3, deleteByCar, List.filter]
    simp

/-- C7 (amended).  When the car's broker is unset (or the computed
commission is not positive), the `20250101000000` reconciliation deletes
every commission record of that car — paid records included — and the
`unnamed/part_003` reconciliation does the same when the broker is
removed: the deletion is not restricted to unpaid records. -/
theorem C7_paid_delete_amended :
    (∀ (c : Car) (n : Nat) (s : State), c.broker_id = none →
      (update_broker_commissions_v0 c n s).commissions =
        deleteByCar c.id s.commissions) ∧
    (∀ (c : Car) (n : Nat) (s : State) (b : Nat), c.broker_id = some b →
      ¬ calculate_broker_commission_v0 c > 0 →
      (update_broker_commissions_v0 c n s).commissions =
        deleteByCar c.id s.commissions) ∧
    (∀ (old new : Car) (n : Nat) (s : State),
      new.broker_id = none → old.broker_id ≠ none →
      (update_broker_commissions_p3 old new n s).commissions =
        deleteByCar new.id s.commissions) := by
  refine ⟨?_, ?_, ?_⟩
  · intro c n s hb
    unfold update_broker_commissions_v0
    rw [hb]
  · intro c n s b hb hamt
    unfold update_broker_commissions_v0
    rw [hb]
    simp only [hamt, if_false]
  · intro old new n s hb hob
    unfold update_broker_commissions_p3
    rw [hb]
    simp only [ne_eq, not_true_eq_false, false_and, if_false, hob,
      not_false_eq_true, and_self, if_true]

/-- C7 witness: the amended theorem applied at the counterexample store,
where deleting car 1's records removes the paid record. -/
theorem C7_paid_delete_amended_witness :
    (update_broker_commissions_v0
        ⟨1, 100, none, some CommissionType.fixed, some 50,
          CarStatus.available⟩ 9
        ⟨[], [], [⟨5, some 1, 1, 100, true, some 3⟩]⟩).commissions =
      deleteByCar 1 [⟨5, some 1, 1, 100, true, some 3⟩] :=
  C7_paid_delete_amended.1
    ⟨1, 100, none, some CommissionType.fixed, some 50, CarStatus.available⟩ 9
    ⟨[], [], [⟨5, some 1, 1, 100, true, some 3⟩]⟩ rfl

/-! ### C8: trigger conditions and in-place amount update -/

/-- C8 counterexample.  Under the `20250101000018` revision, updating only
the purchase price does not re-fire reconciliation: with car 1 at 10%
commission, a price change from 100 to 200 leaves the state untouched, so
the unpaid record keeps amount 10 even though the revision's own formula
now computes 20 — the record does not reflect the current configuration,
refuting the claimed trigger conditions. -/
theorem C8_trigger_conditions_counterexample :
    (update_broker_commissions_v18_upd
        ⟨1, 100, some 1, some CommissionType.percentage, some 10,
          CarStatus.available⟩
        ⟨1, 200, some 1, some CommissionType.percentage, some 10,
          CarStatus.available⟩ 9
        ⟨[], [], [⟨5, some 1, 1, 10, false, none⟩]⟩) =
      ⟨[], [], [⟨5, some 1, 1, 10, false, none⟩]⟩ ∧
    commission_v18
      ⟨1, 200, some 1, some CommissionType.percentage, some 10,
        CarStatus.available⟩ 10 = 20 := by
  constructor
  · simp [update_broker_commissions_v18_upd]
  · norm_num [commission_v18]

/-- C8 (amended).  The `20250101000018` revision fires only on broker or
commission-value changes: any update leaving those two fields unchanged
(price, type or status edits) is a no-op.  The `20250101000012` revision
does fire on purchase-price changes (and on creation): whenever the new
price differs, the broker is set and the computed commission is positive,
every record of that car afterwards carries the current broker, the newly
computed amount and paid = false (the upsert leaves `paid_date`
untouched); the same holds for the INSERT invocation on car creation.
Neither revision fires on a sale-status-only change. -/
theorem C8_trigger_conditions_amended :
    (∀ (old new : Car) (n : Nat) (s : State),
      old.broker_id = new.broker_id →
      old.broker_commission_value = new.broker_commission_value →
      update_broker_commissions_v18_upd old new n s = s) ∧
    (∀ (old new : Car) (n : Nat) (s : State) (r : CommissionRecord)
        (b : Nat),
      old.purchase_price ≠ new.purchase_price → new.broker_id = some b →
      calculate_broker_commission_v12 new > 0 →
      r ∈ (update_broker_commissions_v12_upd old new n s).commissions →
      r.car_id = new.id →
      r.broker_id = some b ∧
        r.commission_amount = calculate_broker_commission_v12 new ∧
        r.is_paid = false) ∧
    (∀ (c : Car) (n : Nat) (s : State) (r : CommissionRecord) (b : Nat),
      c.broker_id = some b → calculate_broker_commission_v12 c > 0 →
      r ∈ (update_broker_commissions_v12_ins c n s).commissions →
      r.car_id = c.id →
      r.broker_id = some b ∧
        r.commission_amount = calculate_broker_commission_v12 c ∧
        r.is_paid = false) := by
  refine ⟨?_, ?_, ?_⟩
  · intro old new n s h1 h2
    unfold update_broker_commissions_v18_upd
    simp [h1, h2]
  · intro old new n s r b hp hb hamt hr hc
    unfold update_broker_commissions_v12_upd at hr
    simp only [hp, hb, ne_eq, reduceCtorEq, not_false_eq_true, or_true,
      true_and, and_true, if_true] at hr
    unfold update_broker_commissions_v12_body at hr
    simp only [hamt, if_true, hb, Option.getD_some] at hr
    exact upsertByCar_v12_mem n b new.id _ s.commissions r hr hc
  · intro c n s r b hb hamt hr hc
    unfold update_broker_commissions_v12_ins at hr
    simp only [hb, ne_eq, reduceCtorEq, not_false_eq_true, if_true] at hr
    unfold update_broker_commissions_v12_body at hr
    simp only [hamt, if_true, hb, Option.getD_some] at hr
    exact upsertByCar_v12_mem n b c.id _ s.commissions r hr hc

/-- C8 witness: a price-only update under the `20250101000012` revision,
applied at the counterexample store, rewrites car 1's record to the newly
computed amount 20, unpaid. -/
theorem C8_trigger_conditions_amended_witness :
    (⟨5, some 1, 1, (20 : Rat), false, none⟩ : CommissionRecord).broker_id
        = some 1 ∧
      (⟨5, some 1, 1, (20 : Rat), false, none⟩ :
          CommissionRecord).commission_amount =
        calculate_broker_commission_v12
          ⟨1, 200, some 1, some CommissionType.percentage, some 10,
            CarStatus.available⟩ ∧
      (⟨5, some 1, 1, (20 : Rat), false, none⟩ : CommissionRecord).is_paid
        = false :=
  C8_trigger_conditions_amended.2.1
    ⟨1, 100, some 1, some CommissionType.percentage, some 10,
      CarStatus.available⟩
    ⟨1, 200, some 1, some CommissionType.percentage, some 10,
      CarStatus.available⟩ 9
    ⟨[], [], [⟨5, some 1, 1, 10, false, none⟩]⟩
    ⟨5, some 1, 1, 20, false, none⟩ 1
    (by norm_num)
    rfl
    (by norm_num [calculate_broker_commission_v12])
    (by norm_num [update_broker_commissions_v12_upd,
      update_broker_commissions_v12_body, calculate_broker_commission_v12,
      upsertByCar_v12, List.any_cons]
        simp)
    rfl

/-! ### Lemmas on handle_car_sale -/

/-- Marking a car sold does not change the fields the commission
calculation reads. -/
lemma calculate_broker_commission_001_status (c : Car) :
    calculate_broker_commission_001 { c with status := CarStatus.sold } =
      calculate_broker_commission_001 c := rfl

/-- Looking up the car after the status write returns the sold car. -/
lemma findCar_set_sold (cid : Nat) (cs : List Car) (c : Car)
    (h : findCar cid cs = some c) :
    findCar cid (cs.map (fun x =>
        if x.id = cid then { x with status := CarStatus.sold } else x)) =
      some { c with status := CarStatus.sold } := by
  induction cs with
  | nil => simp [findCar] at h
  | cons a tl ih =>
      by_cases ha : a.id = cid
      · have h0 : findCar cid (a :: tl) = some a := by
          simp [findCar, List.find?_cons_of_pos, ha]
        rw [h0] at h
        injection h with h
        subst h
        simp [findCar, List.find?_cons_of_pos, ha]
      · have h0 : findCar cid (a :: tl) = findCar cid tl := by
          simp [findCar, List.find?_cons_of_neg, ha]
        rw [h0] at h
        simp only [List.map_cons]
        rw [if_neg ha]
        have h2 : findCar cid (a :: tl.map (fun x =>
            if x.id = cid then { x with status := CarStatus.sold } else x)) =
            findCar cid (tl.map (fun x =>
              if x.id = cid then { x with status := CarStatus.sold } else x)) := by
          simp [findCar, List.find?_cons_of_neg, ha]
        rw [h2]
        exact ih h

/-- One `handle_car_sale` run on a full-purchase payment for a car with a
broker and a positive commission: the car goes sold, an unpaid record is
appended, and the broker's due total grows by the amount. -/
lemma handle_car_sale_run (p : Payment) (n : Nat) (s : State) (c : Car)
    (b : Nat) (amt : Rat)
    (hp : p.payment_type = PaymentType.full_purchase)
    (hfind : findCar p.car_id s.cars = some c)
    (hb : c.broker_id = some b)
    (hcalc : calculate_broker_commission_001 c = some amt)
    (hamt : amt > 0) :
    handle_car_sale p n s =
      { cars := s.cars.map (fun x =>
          if x.id = p.car_id then { x with status := CarStatus.sold } else x),
        brokers := s.brokers.map (fun br =>
          if br.id = b then
            { br with total_commission_due := br.total_commission_due + amt }
          else br),
        commissions :=
          s.commissions ++ [⟨n, some b, p.car_id, amt, false, none⟩] } := by
  have hf1 := findCar_set_sold p.car_id s.cars c hfind
  have hc1 : calculate_broker_commission_001
      { c with status := CarStatus.sold } = some amt := hcalc
  unfold handle_car_sale
  rw [if_pos hp]
  simp only [hf1, hc1, hamt, if_true]
  simp only [hb]

/-! ### C9: no uniqueness constraint on the car reference -/

/-- C9 counterexample.  `broker_commissions` carries no uniqueness
constraint on `car_id` (only the `id` primary key), and `handle_car_sale`
inserts unconditionally: recording two full-purchase payments for car 1
leaves two commission records for the same car. -/
theorem C9_uniqueness_counterexample :
    ["car_id"] ∉ broker_commissions_unique_keys ∧
    ((handle_car_sale ⟨1, PaymentType.full_purchase⟩ 8
        (handle_car_sale ⟨1, PaymentType.full_purchase⟩ 7
          ⟨[⟨1, 100, some 1, some CommissionType.fixed, some 50,
              CarStatus.available⟩], [⟨1, 0, 0⟩], []⟩)).commissions.map
      (fun r => r.car_id)) = [1, 1] := by
  constructor
  · simp [broker_commissions_unique_keys]
  · have hstep1 : handle_car_sale ⟨1, PaymentType.full_purchase⟩ 7
        ⟨[⟨1, 100, some 1, some CommissionType.fixed, some 50,
            CarStatus.available⟩], [⟨1, 0, 0⟩], []⟩ =
        ⟨[⟨1, 100, some 1, some CommissionType.fixed, some 50,
            CarStatus.sold⟩], [⟨1, 50, 0⟩],
          [⟨7, some 1, 1, 50, false, none⟩]⟩ := by
      norm_num [handle_car_sale, findCar, List.find?,
        calculate_broker_commission_001]
    have hstep2 : handle_car_sale ⟨1, PaymentType.full_purchase⟩ 8
        ⟨[⟨1, 100, some 1, some CommissionType.fixed, some 50,
            CarStatus.sold⟩], [⟨1, 50, 0⟩],
          [⟨7, some 1, 1, 50, false, none⟩]⟩ =
        ⟨[⟨1, 100, some 1, some CommissionType.fixed, some 50,
            CarStatus.sold⟩], [⟨1, 100, 0⟩],
          [⟨7, some 1, 1, 50, false, none⟩,
            ⟨8, some 1, 1, 50, false, none⟩]⟩ := by
      norm_num [handle_car_sale, findCar, List.find?,
        calculate_broker_commission_001]
    rw [hstep1, hstep2]
    rfl

/-- C9 (amended).  The schema gives `broker_commissions` no uniqueness
constraint on the car reference (only the `id` primary key; the upsert
revisions' `ON CONFLICT (car_id)` clauses presuppose a constraint that no
migration creates), and the engine can create a second record for the
same car: for any store, recording two full-purchase payments for a car
with a broker and a positive commission appends two commission records
with that same car id. -/
theorem C9_uniqueness_amended :
    ["car_id"] ∉ broker_commissions_unique_keys ∧
    (∀ (p : Payment) (n1 n2 : Nat) (s : State) (c : Car) (b : Nat)
        (amt : Rat),
      p.payment_type = PaymentType.full_purchase →
      findCar p.car_id s.cars = some c →
      c.broker_id = some b →
      calculate_broker_commission_001 c = some amt →
      amt > 0 →
      (handle_car_sale p n2 (handle_car_sale p n1 s)).commissions =
        s.commissions ++ [⟨n1, some b, p.car_id, amt, false, none⟩]
          ++ [⟨n2, some b, p.car_id, amt, false, none⟩]) := by
  constructor
  · simp [broker_commissions_unique_keys]
  · intro p n1 n2 s c b amt hp hfind hb hcalc hamt
    have h1 := handle_car_sale_run p n1 s c b amt hp hfind hb hcalc hamt
    have hfind2 : findCar p.car_id (handle_car_sale p n1 s).cars =
        some { c with status := CarStatus.sold } := by
      rw [h1]
      exact findCar_set_sold p.car_id s.cars c hfind
    have h2 := handle_car_sale_run p n2 (handle_car_sale p n1 s)
      { c with status := CarStatus.sold } b amt hp hfind2 hb hcalc hamt
    rw [h2, h1]

/-- C9 witness: the amended theorem applied at the concrete one-car store
of the counterexample. -/
theorem C9_uniqueness_amended_witness :
    (handle_car_sale ⟨1, PaymentType.full_purchase⟩ 8
        (handle_car_sale ⟨1, PaymentType.full_purchase⟩ 7
          ⟨[⟨1, 100, some 1, some CommissionType.fixed, some 50,
              CarStatus.available⟩], [⟨1, 0, 0⟩], []⟩)).commissions =
      [] ++ [⟨7, some 1, 1, 50, false, none⟩]
        ++ [⟨8, some 1, 1, 50, false, none⟩] :=
  C9_uniqueness_amended.2 ⟨1, PaymentType.full_purchase⟩ 7 8
    ⟨[⟨1, 100, some 1, some CommissionType.fixed, some 50,
        CarStatus.available⟩], [⟨1, 0, 0⟩], []⟩
    ⟨1, 100, some 1, some CommissionType.fixed, some 50,
      CarStatus.available⟩ 1 50 rfl rfl rfl rfl (by norm_num)

/-! ### Lemmas on the unpaid sum -/

/-- Unfolding `sumUnpaidFor` over a cons. -/
lemma sumUnpaidFor_cons (bid : Nat) (a : CommissionRecord)
    (tl : List CommissionRecord) :
    sumUnpaidFor bid (a :: tl) =
      if a.broker_id = some bid ∧ a.is_paid = false then
        a.commission_amount + sumUnpaidFor bid tl
      else sumUnpaidFor bid tl := rfl

/-- Lemma: `sumUnpaidFor` distributes over append. -/
lemma sumUnpaidFor_append (bid : Nat) (l1 l2 : List CommissionRecord) :
    sumUnpaidFor bid (l1 ++ l2) =
      sumUnpaidFor bid l1 + sumUnpaidFor bid l2 := by
  induction l1 with
  | nil =>
      show sumUnpaidFor bid l2 = sumUnpaidFor bid [] + sumUnpaidFor bid l2
      show sumUnpaidFor bid l2 = 0 + sumUnpaidFor bid l2
      rw [zero_add]
  | cons a tl ih =>
      by_cases hcond : a.broker_id = some bid ∧ a.is_paid = false
      · rw [List.cons_append, sumUnpaidFor_cons, sumUnpaidFor_cons,
          if_pos hcond, if_pos hcond, ih, add_assoc]
      · rw [List.cons_append, sumUnpaidFor_cons, sumUnpaidFor_cons,
          if_neg hcond, if_neg hcond, ih]

/-- Marking a record paid whose id is absent from the list changes
nothing. -/
lemma setCommissionPaid_absent (cid d : Nat) (rs : List CommissionRecord)
    (h : ∀ x ∈ rs, x.id ≠ cid) : setCommissionPaid cid d rs = rs := by
  apply list_map_eq_self
  intro x hx
  rw [if_neg (h x hx)]

/-- Marking the unique unpaid record `r` paid removes exactly its amount
from the unpaid sum of its broker (and nothing from other brokers). -/
lemma sumUnpaidFor_setPaid (bid d : Nat) (rs : List CommissionRecord)
    (r : CommissionRecord) (hmem : r ∈ rs) (hunpaid : r.is_paid = false)
    (hnd : (rs.map (fun x => x.id)).Nodup) :
    sumUnpaidFor bid (setCommissionPaid r.id d rs) =
      sumUnpaidFor bid rs -
        (if r.broker_id = some bid then r.commission_amount else 0) := by
  induction rs with
  | nil => cases hmem
  | cons a tl ih =>
      rw [List.map_cons, List.nodup_cons] at hnd
      obtain ⟨hna, hndtl⟩ := hnd
      rcases List.mem_cons.mp hmem with rfl | hmtl
      · have htl : setCommissionPaid r.id d tl = tl := by
          apply setCommissionPaid_absent
          intro x hx hxid
          exact hna (hxid ▸ List.mem_map_of_mem (fun y => y.id) hx)
        show sumUnpaidFor bid
            ((if r.id = r.id then
                { r with is_paid := true, paid_date := some d }
              else r) :: setCommissionPaid r.id d tl) = _
        rw [if_pos rfl, htl, sumUnpaidFor_cons, sumUnpaidFor_cons]
        simp only [hunpaid]
        by_cases hbr : r.broker_id = some bid
        · rw [if_neg (by simp), if_pos (by simp [hbr]), if_pos hbr]
          ring
        · rw [if_neg (by simp), if_neg (by simp [hbr]), if_neg hbr]
          ring
      · have haid : a.id ≠ r.id := by
          intro he
          exact hna (he ▸ List.mem_map_of_mem (fun y => y.id) hmtl)
        show sumUnpaidFor bid
            ((if a.id = r.id then
                { a with is_paid := true, paid_date := some d }
              else a) :: setCommissionPaid r.id d tl) = _
        rw [if_neg haid, sumUnpaidFor_cons, sumUnpaidFor_cons,
          ih hmtl hndtl]
        by_cases hcond : a.broker_id = some bid ∧ a.is_paid = false
        · rw [if_pos hcond, if_pos hcond]
          ring
        · rw [if_neg hcond, if_neg hcond]

/-- The unpaid sum of the empty relation. -/
lemma sumUnpaidFor_nil (bid : Nat) : sumUnpaidFor bid [] = 0 := rfl

/-! ### C1: the balance invariant -/

/-- C1 counterexample.  Reconciliation does not preserve the balance
invariant: starting from a consistent store (broker 1 with due 0, no
records), the `20250101000018` car-insert reconciliation creates an
unpaid record of amount 50 without touching `total_commission_due`, so
afterwards the broker's due total (0) no longer equals the unpaid sum
(50). -/
theorem C1_balance_invariant_counterexample :
    brokerInvariant ⟨[], [⟨1, 0, 0⟩], []⟩ ∧
    ¬ brokerInvariant
      (update_broker_commissions_v18_ins
        ⟨1, 100, some 1, some CommissionType.fixed, some 50,
          CarStatus.available⟩ 7 ⟨[], [⟨1, 0, 0⟩], []⟩) := by
  constructor
  · intro b hb
    simp only [List.mem_singleton] at hb
    subst hb
    rfl
  · intro hcontra
    have hm : (⟨1, 0, 0⟩ : Broker) ∈ (update_broker_commissions_v18_ins
        ⟨1, 100, some 1, some CommissionType.fixed, some 50,
          CarStatus.available⟩ 7 ⟨[], [⟨1, 0, 0⟩], []⟩).brokers := by
      norm_num [update_broker_commissions_v18_ins]
    have hdue := hcontra ⟨1, 0, 0⟩ hm
    norm_num [update_broker_commissions_v18_ins, commission_v18,
      sumUnpaidFor, List.foldr] at hdue

/-- C1 (amended).  The balance invariant is preserved by the two
operations that do maintain broker totals — `handle_car_sale` (which
credits `total_commission_due` together with creating the unpaid record)
and the mark-paid transition (record set paid plus `update_broker_totals`
by the record's amount, for a uniquely-identified unpaid record) — but,
per the counterexample, not by the trigger reconciliation revisions,
which rewrite commission records without ever touching broker totals. -/
theorem C1_balance_invariant_amended :
    (∀ (p : Payment) (n : Nat) (s : State),
      brokerInvariant s → brokerInvariant (handle_car_sale p n s)) ∧
    (∀ (s : State) (r : CommissionRecord) (d bid : Nat),
      r ∈ s.commissions → r.is_paid = false → r.broker_id = some bid →
      (s.commissions.map (fun x => x.id)).Nodup →
      brokerInvariant s →
      brokerInvariant
        (markCommissionPaid_sql r.id d bid r.commission_amount s)) := by
  constructor
  · intro p n s h
    unfold handle_car_sale
    by_cases hp : p.payment_type = PaymentType.full_purchase
    case neg => rw [if_neg hp]; exact h
    case pos =>
      rw [if_pos hp]
      rcases hf : findCar p.car_id (s.cars.map fun c =>
          if c.id = p.car_id then { c with status := CarStatus.sold }
          else c) with _ | c
      · simp only [hf]
        simp only [gt_iff_lt, lt_irrefl, if_false]
        exact h
      · simp only [hf]
        rcases hc : calculate_broker_commission_001 c with _ | amt
        · exact h
        · by_cases hamt : amt > 0
          · simp only [hamt, if_true]
            rcases hb : c.broker_id with _ | b
            · exact h
            · intro b' hb'
              rw [List.mem_map] at hb'
              obtain ⟨bb, hbb, rfl⟩ := hb'
              have hi := h bb hbb
              by_cases hid : bb.id = b
              · rw [if_pos hid]
                simp only [sumUnpaidFor_append, sumUnpaidFor_cons,
                  sumUnpaidFor_nil]
                rw [if_pos (by simp [hid])]
                rw [hi]
                ring
              · rw [if_neg hid]
                simp only [sumUnpaidFor_append, sumUnpaidFor_cons,
                  sumUnpaidFor_nil]
                rw [if_neg (by
                  intro hcontra
                  exact hid (Option.some.inj hcontra.1).symm)]
                rw [hi]
                ring
          · simp only [hamt, if_false]
            exact h
  · intro s r d bid hmem hunpaid hbid hnd h
    intro b' hb'
    unfold markCommissionPaid_sql update_broker_totals at hb'
    simp only [List.mem_map] at hb'
    obtain ⟨bb, hbb, rfl⟩ := hb'
    have hi := h bb hbb
    have hsum := sumUnpaidFor_setPaid bb.id d s.commissions r hmem hunpaid hnd
    by_cases hid : bb.id = bid
    · rw [if_pos hid]
      show bb.total_commission_due - r.commission_amount =
        sumUnpaidFor bb.id (setCommissionPaid r.id d s.commissions)
      rw [hsum, hi, hbid]
      rw [if_pos (by rw [hid])]
    · rw [if_neg hid]
      show bb.total_commission_due =
        sumUnpaidFor bb.id (setCommissionPaid r.id d s.commissions)
      rw [hsum, hi, hbid]
      rw [if_neg (by
        intro hcontra
        exact hid (Option.some.inj hcontra).symm), sub_zero]

/-- C1 witness: starting from a consistent one-broker store, selling car 1
through `handle_car_sale` and then marking its record (id 7, amount 50)
paid through the mark-paid transition keeps the balance invariant. -/
theorem C1_balance_invariant_amended_witness :
    brokerInvariant
      (markCommissionPaid_sql 7 9 1 50
        (handle_car_sale ⟨1, PaymentType.full_purchase⟩ 7
          ⟨[⟨1, 100, some 1, some CommissionType.fixed, some 50,
              CarStatus.available⟩], [⟨1, 0, 0⟩], []⟩)) := by
  have hstep : handle_car_sale ⟨1, PaymentType.full_purchase⟩ 7
      ⟨[⟨1, 100, some 1, some CommissionType.fixed, some 50,
          CarStatus.available⟩], [⟨1, 0, 0⟩], []⟩ =
      ⟨[⟨1, 100, some 1, some CommissionType.fixed, some 50,
          CarStatus.sold⟩], [⟨1, 50, 0⟩],
        [⟨7, some 1, 1, 50, false, none⟩]⟩ := by
    norm_num [handle_car_sale, findCar, List.find?,
      calculate_broker_commission_001]
  have h0 : brokerInvariant
      ⟨[⟨1, 100, some 1, some CommissionType.fixed, some 50,
          CarStatus.available⟩], [⟨1, 0, 0⟩], []⟩ := by
    intro b hb
    simp only [List.mem_singleton] at hb
    subst hb
    rfl
  have h1 := C1_balance_invariant_amended.1 ⟨1, PaymentType.full_purchase⟩ 7
    ⟨[⟨1, 100, some 1, some CommissionType.fixed, some 50,
        CarStatus.available⟩], [⟨1, 0, 0⟩], []⟩ h0
  exact C1_balance_invariant_amended.2
    (handle_car_sale ⟨1, PaymentType.full_purchase⟩ 7
      ⟨[⟨1, 100, some 1, some CommissionType.fixed, some 50,
          CarStatus.available⟩], [⟨1, 0, 0⟩], []⟩)
    ⟨7, some 1, 1, 50, false, none⟩ 9 1
    (by rw [hstep]; simp)
    rfl rfl
    (by rw [hstep]; simp)
    h1
